import Mathlib

/-!
Verification development for the NOESIS civil-unrest detection system.

The backend services layer (clustering engine, verification engine, severity
classifier, moderation gate, risk predictor) is described by the system
specification; the repository snapshot ships the frontend sources together
with the backend's documentation.  The backend operations below are therefore
modelled from the specification text; the frontend definitions
(`IncidentMap` marker filtering, `ApiService` fetch methods) are translated
directly from the JavaScript sources.

Scores, coordinates and similarities are modelled as rationals; timestamps
as naturals (epoch seconds).
-/

namespace Noesis

/-- Modelled from the spec: the fixed enumeration of source kinds
(§3 Post); `weather` is contextual-only and never cluster-forming. -/
inductive SourceKind where
  | social
  | forum
  | news
  | channel
  | weather
deriving DecidableEq

/-- Modelled from the spec: sentiment labels attached to a Post (§3). -/
inductive Sentiment where
  | peaceful
  | tense
  | hostile
  | neutral
deriving DecidableEq

/-- Modelled from the spec: Incident lifecycle statuses (§3, §4.3). -/
inductive Status where
  | unverified
  | verified
  | flaggedFalsePositive
  | merged
deriving DecidableEq

/-- Modelled from the spec: severity tiers (§4.3). -/
inductive Severity where
  | low
  | medium
  | high
deriving DecidableEq

/-- Modelled from the spec: a resolved canonical place (§3, §4.5):
coordinates, resolution confidence and a place name (regions are
identified by the numeric place name). -/
structure Location where
  lat : ℚ
  lng : ℚ
  confidence : ℚ
  placeName : ℕ
deriving DecidableEq

/-- Modelled from the spec: one normalized observation from one source
(§3 Post).  `relevance = none` models a Post whose feature extraction
failed (`ExtractionUnavailable`); `location = none` models an unresolved
location (`ResolutionTimeout`).  `sourceId` identifies the distinct
concrete source within its kind; `participants` is the participant-count
mention extracted from the text. -/
structure Post where
  id : ℕ
  source : SourceKind
  sourceId : ℕ
  timestamp : ℕ
  relevance : Option ℚ
  sentiment : Sentiment
  entities : List ℕ
  participants : ℕ
  location : Option Location
deriving DecidableEq

/-- Modelled from the spec: the externally visible aggregation of member
Posts believed to describe one real event (§3 Incident).  The time window
is stored as `windowStart`/`windowEnd` and is required (invariant) to equal
the min/max member timestamps; `statusLocked`/`severityLocked` are the
moderation locks; `forwardRef` is the surviving Incident of a merge. -/
structure Incident where
  id : ℕ
  status : Status
  confidence : ℚ
  severity : Severity
  members : List Post
  windowStart : ℕ
  windowEnd : ℕ
  location : Option Location
  updatedAt : ℕ
  statusLocked : Bool
  severityLocked : Bool
  forwardRef : Option ℕ
deriving DecidableEq

/-- Modelled from the spec: the incident store plus the post audit trail
(§3, §9); `nextId` supplies fresh stable Incident ids. -/
structure Store where
  incidents : List Incident
  posts : List Post
  nextId : ℕ
deriving DecidableEq

/-- Modelled from the spec: the tunable parameters T, R, S, N, K, the
relevance and verification floors, the severity participant threshold,
the moderation confirm floor, and the risk predictor's minimum sample
size (§4.1, §4.2, §4.3, §4.4, §4.6). -/
structure Config where
  minRelevance : ℚ
  timeWindowT : ℕ
  radiusR : ℚ
  simThreshold : ℚ
  minSourceKinds : ℕ
  minDistinctSources : ℕ
  verificationFloor : ℚ
  highParticipants : ℕ
  confirmFloor : ℚ
  minSampleSize : ℕ
deriving DecidableEq

/-- Modelled from the spec: the default parameter values (§4.1, §4.2,
§4.6): T = 6 hours, R = 50 km, S = 0.6, N = 2, K = 3. -/
def defaultConfig : Config :=
  { minRelevance := 1/2
    timeWindowT := 21600
    radiusR := 50
    simThreshold := 3/5
    minSourceKinds := 2
    minDistinctSources := 3
    verificationFloor := 3/5
    highParticipants := 1000
    confirmFloor := 9/10
    minSampleSize := 3 }

/-- Clip a rational into [0,1] (used by confidence and similarity scores). -/
def clip01 (x : ℚ) : ℚ := max 0 (min 1 x)

/-- Earliest timestamp among a list of member Posts (0 on an empty list,
which never feeds the invariant). -/
def minTs : List Post → ℕ
  | [] => 0
  | p :: ps => ps.foldl (fun a q => min a q.timestamp) p.timestamp

/-- Latest timestamp among a list of member Posts. -/
def maxTs : List Post → ℕ
  | [] => 0
  | p :: ps => ps.foldl (fun a q => max a q.timestamp) p.timestamp

/-- Modelled from the spec: Posts whose feature extraction failed do not
count toward corroboration but remain linked members (§4.2 Failure). -/
def corroboratingMembers (ms : List Post) : List Post :=
  ms.filter (fun p => p.relevance.isSome)

/-- Modelled from the spec: number of distinct source kinds, excluding
weather, among the corroborating members (§4.2). -/
def distinctKinds (ms : List Post) : ℕ :=
  (((corroboratingMembers ms).filter (fun p => p.source ≠ SourceKind.weather)).map
    (fun p => p.source)).dedup.length

/-- Modelled from the spec: number of distinct concrete sources of any
kind among the corroborating members (§4.2). -/
def distinctSources (ms : List Post) : ℕ :=
  ((corroboratingMembers ms).map (fun p => (p.source, p.sourceId))).dedup.length

/-- Mean relevance over the members that carry a relevance score. -/
def meanRelevance (ms : List Post) : ℚ :=
  let rs := ms.filterMap (fun p => p.relevance)
  rs.sum / max 1 (rs.length : ℚ)

/-- Modelled from the spec: the corroboration rule (§4.2): at least N
distinct source kinds (excluding weather) OR at least K distinct sources
of any kind, AND mean relevance at least the verification floor. -/
def corroborated (cfg : Config) (ms : List Post) : Bool :=
  (decide (cfg.minSourceKinds ≤ distinctKinds ms)
      || decide (cfg.minDistinctSources ≤ distinctSources ms))
    && decide (cfg.verificationFloor ≤ meanRelevance ms)

/-- Modelled from the spec: sentiment intensity used by the confidence
function (hostile most intense). -/
def sentimentIntensity : Sentiment → ℚ
  | Sentiment.hostile => 1
  | Sentiment.tense => 2/3
  | Sentiment.peaceful => 1/3
  | Sentiment.neutral => 1/3

/-- Mean sentiment intensity over the members. -/
def meanIntensity (ms : List Post) : ℚ :=
  (ms.map (fun p => sentimentIntensity p.sentiment)).sum / max 1 (ms.length : ℚ)

/-- Resolution confidence of the canonical location (0 when unresolved). -/
def locationConfidence (inc : Incident) : ℚ :=
  match inc.location with
  | some l => l.confidence
  | none => 0

/-- Modelled from the spec: confidence as a monotone combination of
distinct-source count, mean relevance, mean sentiment intensity and the
canonical location's resolution confidence, clipped to [0,1] (§4.2). -/
def confidenceOf (cfg : Config) (inc : Incident) : ℚ :=
  clip01 ((distinctSources inc.members : ℚ) / (cfg.minDistinctSources + 1) * (2/5)
    + meanRelevance inc.members * (3/10)
    + meanIntensity inc.members * (3/20)
    + locationConfidence inc * (3/20))

/-- Share of members carrying a hostile sentiment label. -/
def hostileShare (ms : List Post) : ℚ :=
  ((ms.filter (fun p => p.sentiment = Sentiment.hostile)).length : ℚ)
    / max 1 (ms.length : ℚ)

/-- Aggregate participant estimate: the largest participant-count mention. -/
def participantEstimate (ms : List Post) : ℕ :=
  ms.foldl (fun a p => max a p.participants) 0

/-- Modelled from the spec: the deterministic severity rule ladder (§4.3),
evaluated high→low, first match wins. -/
def classifySeverity (cfg : Config) (ms : List Post) : Severity :=
  if (1/2 < hostileShare ms ∧ cfg.minDistinctSources ≤ distinctSources ms)
      ∨ cfg.highParticipants < participantEstimate ms then
    Severity.high
  else if cfg.minSourceKinds ≤ distinctSources ms ∨ 1/4 < hostileShare ms then
    Severity.medium
  else
    Severity.low

/-- Modelled from the spec: the status component of verification scoring
(§4.2): promotion to `verified` on corroboration; a `verified` Incident
never automatically reverts to `unverified`. -/
def scoreStatus (cfg : Config) (inc : Incident) : Status :=
  if inc.status = Status.verified then Status.verified
  else if corroborated cfg inc.members then Status.verified
  else Status.unverified

/-- Modelled from the spec: automatic re-scoring of one Incident (§4.2,
§4.3): terminal Incidents (`merged`, `flagged_false_positive`) contribute
no further automatic mutation; moderation locks suppress the status /
confidence and severity recomputations respectively. -/
def rescoreIncident (cfg : Config) (inc : Incident) : Incident :=
  if inc.status = Status.merged ∨ inc.status = Status.flaggedFalsePositive then
    inc
  else if inc.statusLocked then
    if inc.severityLocked then inc
    else { inc with severity := classifySeverity cfg inc.members }
  else
    if inc.severityLocked then
      { inc with status := scoreStatus cfg inc, confidence := confidenceOf cfg inc }
    else
      { inc with
          status := scoreStatus cfg inc
          confidence := confidenceOf cfg inc
          severity := classifySeverity cfg inc.members }

/-- Modelled from the spec: severity-only re-evaluation (§4.3), suppressed
when moderation pinned the severity or the Incident is terminal. -/
def rescoreSeverityOnly (cfg : Config) (inc : Incident) : Incident :=
  if inc.status = Status.merged ∨ inc.status = Status.flaggedFalsePositive
      ∨ inc.severityLocked then
    inc
  else
    { inc with severity := classifySeverity cfg inc.members }

/-- Squared coordinate distance, the rational proxy for great-circle
distance used to compare against the radius R (§4.1); geometry beyond
monotonicity in the coordinate differences is not needed by any claim. -/
def dist2 (a b : Location) : ℚ :=
  (a.lat - b.lat) ^ 2 + (a.lng - b.lng) ^ 2

/-- Modelled from the spec: normalized spatial proximity component of the
composite similarity (§4.1); 0 when either side lacks a location fix. -/
def spatialSim (cfg : Config) (p : Post) (inc : Incident) : ℚ :=
  match p.location, inc.location with
  | some lp, some li => clip01 (1 - dist2 lp li / cfg.radiusR ^ 2)
  | _, _ => 0

/-- Distance (in seconds) from a timestamp to an Incident's time window;
0 inside the window (truncated subtraction makes exactly one summand
non-zero outside it). -/
def windowDist (inc : Incident) (t : ℕ) : ℕ :=
  (inc.windowStart - t) + (t - inc.windowEnd)

/-- Modelled from the spec: temporal proximity within the clustering time
window T (§4.1). -/
def temporalSim (cfg : Config) (p : Post) (inc : Incident) : ℚ :=
  clip01 (1 - (windowDist inc p.timestamp : ℚ) / max 1 (cfg.timeWindowT : ℚ))

/-- The Incident's aggregate keyword set: the union of member entities. -/
def keywordSet (inc : Incident) : List ℕ :=
  (inc.members.flatMap (fun p => p.entities)).dedup

/-- Modelled from the spec: lexical/entity overlap between the Post and
the Incident's aggregate keyword set (§4.1). -/
def textualSim (p : Post) (inc : Incident) : ℚ :=
  ((p.entities.filter (fun e => e ∈ keywordSet inc)).length : ℚ)
    / max 1 (p.entities.length : ℚ)

/-- Modelled from the spec: composite similarity as a weighted sum of
spatial, temporal and textual components (§4.1). -/
def similarity (cfg : Config) (p : Post) (inc : Incident) : ℚ :=
  spatialSim cfg p inc * (2/5) + temporalSim cfg p inc * (3/10)
    + textualSim p inc * (3/10)

/-- Modelled from the spec: candidate predicate for clustering (§4.1):
open status, time window overlapping [t−T, t+T], within radius R when
both sides have a location, and an unresolved Post never matched against
a geo-anchored Incident. -/
def isCandidate (cfg : Config) (p : Post) (inc : Incident) : Bool :=
  (decide (inc.status = Status.unverified) || decide (inc.status = Status.verified))
    && decide (inc.windowStart ≤ p.timestamp + cfg.timeWindowT)
    && decide (p.timestamp ≤ inc.windowEnd + cfg.timeWindowT)
    && (match p.location, inc.location with
        | some lp, some li => decide (dist2 lp li ≤ cfg.radiusR ^ 2)
        | none, some _ => false
        | _, none => true)

/-- The candidates whose composite similarity strictly exceeds S (§4.1). -/
def aboveThreshold (cfg : Config) (p : Post) (st : Store) : List Incident :=
  (st.incidents.filter (fun inc => isCandidate cfg p inc)).filter
    (fun inc => decide (cfg.simThreshold < similarity cfg p inc))

/-- `beatsB cfg p a b = true` iff candidate `a` strictly precedes `b`:
higher composite similarity, or equal similarity and a more recent
Incident update time (§4.1 tie-break). -/
def beatsB (cfg : Config) (p : Post) (a b : Incident) : Bool :=
  decide (similarity cfg p b < similarity cfg p a)
    || (decide (similarity cfg p a = similarity cfg p b)
        && decide (b.updatedAt < a.updatedAt))

/-- Candidate preference order (§4.1): `o` is no better than `c` when its
composite similarity is lower, or equal with a no-more-recent update. -/
def candidateLe (cfg : Config) (p : Post) (o c : Incident) : Prop :=
  similarity cfg p o < similarity cfg p c
    ∨ (similarity cfg p o = similarity cfg p c ∧ o.updatedAt ≤ c.updatedAt)

/-- Fold selecting the best candidate, keeping the incumbent on a full tie. -/
def pick1 (cfg : Config) (p : Post) : Incident → List Incident → Incident
  | a, [] => a
  | a, c :: rest => pick1 cfg p (if beatsB cfg p c a then c else a) rest

/-- Highest-scoring candidate, ties broken by most-recent update (§4.1). -/
def pickBest (cfg : Config) (p : Post) : List Incident → Option Incident
  | [] => none
  | x :: xs => some (pick1 cfg p x xs)

/-- Modelled from the spec: posterior canonical location estimate — the
centroid of resolved member locations weighted by resolution confidence
(§4.1 side effects, Glossary). -/
def weightedCentroid (ms : List Post) : Option Location :=
  match ms.filterMap (fun p => p.location) with
  | [] => none
  | l0 :: rest =>
    let locs := l0 :: rest
    let w := (locs.map (fun l => l.confidence)).sum
    if w ≤ 0 then some l0
    else
      some { lat := (locs.map (fun l => l.lat * l.confidence)).sum / w
             lng := (locs.map (fun l => l.lng * l.confidence)).sum / w
             confidence := w / (locs.length : ℚ)
             placeName := l0.placeName }

/-- Modelled from the spec: adding a Post to a chosen Incident (§4.1 side
effects): extend the member set, recompute the time window and canonical
location, refresh the update time, then trigger re-scoring (§4.2, §4.3). -/
def addPostTo (cfg : Config) (p : Post) (inc : Incident) : Incident :=
  let ms := p :: inc.members
  rescoreIncident cfg
    { inc with
        members := ms
        windowStart := minTs ms
        windowEnd := maxTs ms
        location := weightedCentroid ms
        updatedAt := max inc.updatedAt p.timestamp }

/-- Modelled from the spec: the fresh Incident created when no candidate
clears S (§4.1): sole member, status `unverified`, confidence and severity
computed from that one Post. -/
def newIncidentFor (cfg : Config) (p : Post) (i : ℕ) : Incident :=
  let base : Incident :=
    { id := i
      status := Status.unverified
      confidence := 0
      severity := Severity.low
      members := [p]
      windowStart := p.timestamp
      windowEnd := p.timestamp
      location := weightedCentroid [p]
      updatedAt := p.timestamp
      statusLocked := false
      severityLocked := false
      forwardRef := none }
  { base with
      confidence := confidenceOf cfg base
      severity := classifySeverity cfg [p] }

/-- Modelled from the spec: the Clustering Engine's decision record
(§4.1 contract). -/
structure ClusterDecision where
  incidentId : ℕ
  created : Bool
deriving DecidableEq

/-- Modelled from the spec: `assign(post)` (§4.1): deliver the Post to
the best candidate above S, or create a new Incident. -/
def assign (cfg : Config) (p : Post) (st : Store) : ClusterDecision × Store :=
  match pickBest cfg p (aboveThreshold cfg p st) with
  | some c =>
    ({ incidentId := c.id, created := false },
     { st with
         incidents := st.incidents.map
           (fun x => if x.id = c.id then addPostTo cfg p x else x) })
  | none =>
    ({ incidentId := st.nextId, created := true },
     { st with
         incidents := newIncidentFor cfg p st.nextId :: st.incidents
         nextId := st.nextId + 1 })

/-- True when the Post is already linked as a member of some Incident. -/
def alreadyLinked (p : Post) (st : Store) : Bool :=
  st.incidents.any (fun inc => inc.members.any (fun q => q.id = p.id))

/-- Modelled from the spec: the per-Post pipeline step (§2 data flow, §4.1,
§5): the Post is always stored; reprocessing an already-linked Post is a
no-op; Posts with failed extraction or relevance below the minimum
threshold never reach clustering. -/
def processPost (cfg : Config) (p : Post) (st : Store) : Store :=
  if alreadyLinked p st then { st with posts := p :: st.posts }
  else
    match p.relevance with
    | none => { st with posts := p :: st.posts }
    | some r =>
      if r < cfg.minRelevance then { st with posts := p :: st.posts }
      else (assign cfg p { st with posts := p :: st.posts }).2

/-- Modelled from the spec: the error taxonomy (§7). -/
inductive ErrorKind where
  | AlreadyTerminal
  | InvalidTargetState
  | InsufficientHistory
  | NotFound
deriving DecidableEq

/-- Point lookup of an Incident by id. -/
def findIncident (st : Store) (i : ℕ) : Option Incident :=
  st.incidents.find? (fun x => x.id == i)

/-- Apply an id-preserving update to the Incident with the given id. -/
def updateIncident (st : Store) (i : ℕ) (f : Incident → Incident) : Store :=
  { st with incidents := st.incidents.map (fun x => if x.id = i then f x else x) }

/-- Modelled from the spec: `flag(incident_id, reason)` (§4.4): status
becomes `flagged_false_positive`, status and severity are locked, members
remain linked for audit.  Flagging a merged Incident is terminal-state
protected. -/
def flagIncident (st : Store) (i : ℕ) : Store × Option ErrorKind :=
  match findIncident st i with
  | none => (st, some ErrorKind.NotFound)
  | some inc =>
    if inc.status = Status.merged then (st, some ErrorKind.AlreadyTerminal)
    else
      (updateIncident st i (fun x =>
        { x with
            status := Status.flaggedFalsePositive
            statusLocked := true
            severityLocked := true }), none)

/-- Modelled from the spec: `confirm(incident_id)` (§4.4): status becomes
`verified` regardless of automatic corroboration, confidence is set to the
fixed high floor, and the status is locked. -/
def confirmIncident (cfg : Config) (st : Store) (i : ℕ) : Store × Option ErrorKind :=
  match findIncident st i with
  | none => (st, some ErrorKind.NotFound)
  | some inc =>
    if inc.status = Status.merged then (st, some ErrorKind.AlreadyTerminal)
    else
      (updateIncident st i (fun x =>
        { x with
            status := Status.verified
            confidence := cfg.confirmFloor
            statusLocked := true }), none)

/-- The state of the source Incident after a successful merge: status
`merged`, forward reference to the survivor, members re-parented away
(§4.4). -/
def mergedSource (src : Incident) (t : ℕ) : Incident :=
  { src with
      status := Status.merged
      forwardRef := some t
      members := ([] : List Post) }

/-- The state of the target Incident after a successful merge: the
source's members re-parented in, window and canonical location
recomputed, then re-scored as if its members changed (§4.2, §4.3). -/
def mergedTarget (cfg : Config) (src tgt : Incident) : Incident :=
  rescoreIncident cfg
    { tgt with
        members := src.members ++ tgt.members
        windowStart := minTs (src.members ++ tgt.members)
        windowEnd := maxTs (src.members ++ tgt.members)
        location := weightedCentroid (src.members ++ tgt.members) }

/-- Modelled from the spec: `merge(source, target)` (§4.4): fails with
`AlreadyTerminal` when either Incident is already `merged`, and with
`InvalidTargetState` when the target is `flagged_false_positive` (or the
merge is degenerate); on success the source ends as `mergedSource` and
the target as `mergedTarget`.  On error the store is returned untouched
(atomicity). -/
def mergeIncidents (cfg : Config) (st : Store) (s t : ℕ) : Store × Option ErrorKind :=
  match findIncident st s, findIncident st t with
  | some src, some tgt =>
    if src.status = Status.merged ∨ tgt.status = Status.merged then
      (st, some ErrorKind.AlreadyTerminal)
    else if s = t then (st, some ErrorKind.InvalidTargetState)
    else if tgt.status = Status.flaggedFalsePositive then
      (st, some ErrorKind.InvalidTargetState)
    else
      ({ st with
           incidents := st.incidents.map
             (fun x =>
               if x.id = s then mergedSource src t
               else if x.id = t then mergedTarget cfg src tgt
               else x) },
       none)
  | _, _ => (st, some ErrorKind.NotFound)

/-- Modelled from the spec: the automatic (non-moderation) operations
(§4.1, §4.2, §4.3, §9): post assignment through the pipeline, verification
re-scoring and severity re-evaluation of one Incident, and the periodic
re-scoring pass over the whole store. -/
inductive AutoOp where
  | assignPost (p : Post)
  | rescoreVerification (i : ℕ)
  | rescoreSeverity (i : ℕ)
  | periodicRescore
deriving DecidableEq

/-- Apply one automatic operation to the store. -/
def applyAuto (cfg : Config) : AutoOp → Store → Store
  | AutoOp.assignPost p, st => processPost cfg p st
  | AutoOp.rescoreVerification i, st => updateIncident st i (rescoreIncident cfg)
  | AutoOp.rescoreSeverity i, st => updateIncident st i (rescoreSeverityOnly cfg)
  | AutoOp.periodicRescore, st =>
    { st with incidents := st.incidents.map (rescoreIncident cfg) }

/-- Run a sequence of automatic operations. -/
def runAuto (cfg : Config) (ops : List AutoOp) (st : Store) : Store :=
  ops.foldl (fun s o => applyAuto cfg o s) st

/-- Every mutation of the store: the automatic operations plus the three
Moderation Gate operations (erroring moderation calls leave the store
unchanged). -/
inductive Op where
  | auto (a : AutoOp)
  | flag (i : ℕ)
  | confirm (i : ℕ)
  | merge (s t : ℕ)
deriving DecidableEq

/-- Apply one (automatic or moderation) operation to the store. -/
def applyOp (cfg : Config) : Op → Store → Store
  | Op.auto a, st => applyAuto cfg a st
  | Op.flag i, st => (flagIncident st i).1
  | Op.confirm i, st => (confirmIncident cfg st i).1
  | Op.merge s t, st => (mergeIncidents cfg st s t).1

/-- Run a sequence of operations (automatic and moderation). -/
def runOps (cfg : Config) (ops : List Op) (st : Store) : Store :=
  ops.foldl (fun s o => applyOp cfg o s) st

/-- The §3 invariant for one Incident: when it has at least one member
Post, its time window equals the min/max of its member timestamps. -/
def incWindowOk (inc : Incident) : Prop :=
  inc.members ≠ [] →
    inc.windowStart = minTs inc.members ∧ inc.windowEnd = maxTs inc.members

/-- The §3 invariant over the whole store. -/
def windowInv (st : Store) : Prop :=
  ∀ inc ∈ st.incidents, incWindowOk inc

/-- The Incident with the given id exists and is `verified`. -/
def VerifiedAt (st : Store) (i : ℕ) : Prop :=
  ∃ inc, findIncident st i = some inc ∧ inc.status = Status.verified

/-- Well-formedness: every stored Incident id is below the fresh-id counter. -/
def FreshIds (st : Store) : Prop :=
  ∀ inc ∈ st.incidents, inc.id < st.nextId

/-- Modelled from the spec: risk levels via the fixed cut points (§4.6). -/
inductive RiskLevel where
  | low
  | medium
  | high
deriving DecidableEq

/-- Modelled from the spec: the per-region RiskAssessment snapshot (§3,
§4.6), carrying the `InsufficientHistory` degradation flag. -/
structure RiskAssessment where
  riskScore : ℚ
  level : RiskLevel
  insufficientHistory : Bool
  confidence : ℚ
deriving DecidableEq

/-- Discrete risk level from a score: <0.33 low, <0.66 medium, else high. -/
def riskLevelOf (s : ℚ) : RiskLevel :=
  if s < 33/100 then RiskLevel.low
  else if s < 66/100 then RiskLevel.medium
  else RiskLevel.high

/-- The Incident history of a region within a trailing window. -/
def regionHistory (region wStart wEnd : ℕ) (incs : List Incident) : List Incident :=
  incs.filter (fun inc =>
    (match inc.location with
     | some l => decide (l.placeName = region)
     | none => false)
    && decide (wStart ≤ inc.windowStart) && decide (inc.windowStart ≤ wEnd))

/-- Modelled from the spec: `predict(region, window)` (§4.6): combines
recent-incident density, severity mix and rate-of-change into a risk score
in [0,1]; with sparse history (below the minimum sample size) it degrades
gracefully, returning a low-confidence `InsufficientHistory`-flagged
assessment (confidence 1/5) instead of an `Except.error`. -/
def predict (cfg : Config) (region wStart wEnd : ℕ) (incs : List Incident) :
    Except ErrorKind RiskAssessment :=
  if (regionHistory region wStart wEnd incs).length < cfg.minSampleSize then
    let s := clip01 (((regionHistory region wStart wEnd incs).length : ℚ)
      / (10 * (cfg.minSampleSize + 1 : ℚ)))
    Except.ok
      { riskScore := s
        level := riskLevelOf s
        insufficientHistory := true
        confidence := 1/5 }
  else
    let hist := regionHistory region wStart wEnd incs
    let mid := (wStart + wEnd) / 2
    let recent := (hist.filter (fun inc => decide (mid ≤ inc.windowStart))).length
    let density := clip01 ((hist.length : ℚ) / 10)
    let sevShare :=
      ((hist.filter (fun inc => inc.severity = Severity.high)).length : ℚ)
        / max 1 (hist.length : ℚ)
    let rate := ((recent : ℚ)) / max 1 (hist.length : ℚ)
    let s := clip01 (density * (2/5) + sevShare * (2/5) + rate * (1/5))
    Except.ok
      { riskScore := s
        level := riskLevelOf s
        insufficientHistory := false
        confidence := 4/5 }

/-- A concrete resolved location used by the concrete evaluations. -/
def sampleLocation : Location :=
  { lat := 0, lng := 0, confidence := 1, placeName := 7 }

/-- A concrete hostile social Post. -/
def samplePost : Post :=
  { id := 1
    source := SourceKind.social
    sourceId := 10
    timestamp := 100
    relevance := some (4/5)
    sentiment := Sentiment.hostile
    entities := [1, 2]
    participants := 0
    location := some sampleLocation }

/-- A concrete Post whose relevance lies below the default threshold. -/
def samplePost2 : Post :=
  { samplePost with id := 2, relevance := some (1/10) }

/-- A concrete verified Incident holding `samplePost`. -/
def sampleIncident : Incident :=
  { id := 0
    status := Status.verified
    confidence := 1/2
    severity := Severity.low
    members := [samplePost]
    windowStart := 100
    windowEnd := 100
    location := some sampleLocation
    updatedAt := 100
    statusLocked := false
    severityLocked := false
    forwardRef := none }

/-- A concrete store holding the one verified Incident. -/
def sampleStore : Store :=
  { incidents := [sampleIncident], posts := [samplePost], nextId := 1 }

/-- The concrete Incident in its pre-verification state. -/
def unverifiedIncident : Incident :=
  { sampleIncident with status := Status.unverified }

/-- A concrete moderator-flagged Incident. -/
def flaggedIncident : Incident :=
  { sampleIncident with id := 1, status := Status.flaggedFalsePositive }

/-- A second Incident in the same region, for the risk history. -/
def sampleIncident2 : Incident :=
  { sampleIncident with id := 1 }

/-- A concrete store pairing an unverified Incident with a flagged one. -/
def mergeStore : Store :=
  { incidents := [unverifiedIncident, flaggedIncident], posts := [], nextId := 2 }

namespace Frontend

/-- The incident record shape consumed by the `IncidentMap` React
component: `location_lat`/`location_lng` are nullable numbers (`none`
models JavaScript `null`/`undefined`); `severity` is `none` when the
backend value is not one of high/medium/low. -/
structure FrontIncident where
  incident_id : ℕ
  severity : Option Severity
  status : Status
  location_lat : Option ℚ
  location_lng : Option ℚ
deriving DecidableEq

/-- JavaScript truthiness of a nullable number: `null`, `undefined` and
`0` are falsy. -/
def truthyNum : Option ℚ → Bool
  | none => false
  | some q => decide (q ≠ 0)

/-- The filter selections offered by the dashboard. -/
inductive MapFilter where
  | all
  | high
  | medium
  | low
  | verified
  | pending
deriving DecidableEq

/-- The `switch (selectedFilter)` block of `IncidentMap`: severity
filters compare `incident.severity`, `verified`/`pending` compare
`incident.status`, anything else keeps every incident. -/
def filterIncidents (f : MapFilter) (incidents : List FrontIncident) :
    List FrontIncident :=
  match f with
  | MapFilter.high => incidents.filter (fun i => i.severity = some Severity.high)
  | MapFilter.medium => incidents.filter (fun i => i.severity = some Severity.medium)
  | MapFilter.low => incidents.filter (fun i => i.severity = some Severity.low)
  | MapFilter.verified => incidents.filter (fun i => i.status = Status.verified)
  | MapFilter.pending => incidents.filter (fun i => i.status = Status.unverified)
  | MapFilter.all => incidents

/-- The `incidentsWithCoords` expression of `IncidentMap`:
`filteredIncidents.filter(incident => incident.location_lat &&
incident.location_lng)` — the rendered map markers are exactly one per
element of this list. -/
def incidentsWithCoords (f : MapFilter) (incidents : List FrontIncident) :
    List FrontIncident :=
  (filterIncidents f incidents).filter
    (fun i => truthyNum i.location_lat && truthyNum i.location_lng)

/-- A concrete incident record sitting exactly on the prime meridian
(longitude 0), for the concrete evaluations. -/
def frontSample : FrontIncident :=
  { incident_id := 5
    severity := some Severity.high
    status := Status.verified
    location_lat := some (9/2)
    location_lng := some 0 }

/-- Outcome of one underlying HTTP request in `ApiService`:
a network failure (the `fetch` promise rejects) or a response with an
`ok` flag and a parsed JSON body. -/
inductive FetchOutcome (α : Type) where
  | networkError
  | response (ok : Bool) (body : α)
deriving DecidableEq

/-- The failure cases named by the claims: network error or non-ok status. -/
def FetchOutcome.failed {α : Type} : FetchOutcome α → Prop
  | FetchOutcome.networkError => True
  | FetchOutcome.response ok _ => ok = false

namespace ApiService

/-- `ApiService.fetchIncidents`: try/fetch; a non-ok response throws into
the catch, which returns `[]`; a network error also returns `[]`. -/
def fetchIncidents {α : Type} : FetchOutcome (List α) → List α
  | FetchOutcome.networkError => []
  | FetchOutcome.response ok body => if ok then body else []

/-- `ApiService.fetchLatestIncidents`: same failure handling, returns `[]`. -/
def fetchLatestIncidents {α : Type} : FetchOutcome (List α) → List α
  | FetchOutcome.networkError => []
  | FetchOutcome.response ok body => if ok then body else []

/-- `ApiService.fetchPredictions`: same failure handling, returns `[]`. -/
def fetchPredictions {α : Type} : FetchOutcome (List α) → List α
  | FetchOutcome.networkError => []
  | FetchOutcome.response ok body => if ok then body else []

/-- `ApiService.fetchDashboard`: failures are caught and `null` (here
`none`) is returned. -/
def fetchDashboard {α : Type} : FetchOutcome α → Option α
  | FetchOutcome.networkError => none
  | FetchOutcome.response ok body => if ok then some body else none

/-- `ApiService.triggerCollection`: failures return `null`. -/
def triggerCollection {α : Type} : FetchOutcome α → Option α
  | FetchOutcome.networkError => none
  | FetchOutcome.response ok body => if ok then some body else none

/-- `ApiService.subscribeToAlerts`: failures return `null`. -/
def subscribeToAlerts {α : Type} : FetchOutcome α → Option α
  | FetchOutcome.networkError => none
  | FetchOutcome.response ok body => if ok then some body else none

/-- `ApiService.getCollectionStatus`: failures return `null`. -/
def getCollectionStatus {α : Type} : FetchOutcome α → Option α
  | FetchOutcome.networkError => none
  | FetchOutcome.response ok body => if ok then some body else none

/-- `ApiService.fetchRiskAssessment`: failures return `null`. -/
def fetchRiskAssessment {α : Type} : FetchOutcome α → Option α
  | FetchOutcome.networkError => none
  | FetchOutcome.response ok body => if ok then some body else none

/-- `ApiService.fetchPredictiveDashboard`: failures return `null`. -/
def fetchPredictiveDashboard {α : Type} : FetchOutcome α → Option α
  | FetchOutcome.networkError => none
  | FetchOutcome.response ok body => if ok then some body else none

end ApiService

end Frontend

theorem clip01_nonneg (x : ℚ) : 0 ≤ clip01 x := le_max_left 0 _

theorem clip01_le_one (x : ℚ) : clip01 x ≤ 1 := by
  unfold clip01
  exact max_le (by norm_num) (min_le_left 1 x)

theorem rescoreIncident_id (cfg : Config) (inc : Incident) :
    (rescoreIncident cfg inc).id = inc.id := by
  unfold rescoreIncident
  split
  · rfl
  split <;> split <;> rfl

theorem rescoreIncident_members (cfg : Config) (inc : Incident) :
    (rescoreIncident cfg inc).members = inc.members := by
  unfold rescoreIncident
  split
  · rfl
  split <;> split <;> rfl

theorem rescoreIncident_windowStart (cfg : Config) (inc : Incident) :
    (rescoreIncident cfg inc).windowStart = inc.windowStart := by
  unfold rescoreIncident
  split
  · rfl
  split <;> split <;> rfl

theorem rescoreIncident_windowEnd (cfg : Config) (inc : Incident) :
    (rescoreIncident cfg inc).windowEnd = inc.windowEnd := by
  unfold rescoreIncident
  split
  · rfl
  split <;> split <;> rfl

theorem rescoreIncident_status_verified (cfg : Config) (inc : Incident)
    (h : inc.status = Status.verified) :
    (rescoreIncident cfg inc).status = Status.verified := by
  unfold rescoreIncident scoreStatus
  rw [h]
  simp only [reduceCtorEq, or_self, if_false, if_true, reduceIte]
  split <;> split <;> first | rfl | exact h

theorem rescoreSeverityOnly_id (cfg : Config) (inc : Incident) :
    (rescoreSeverityOnly cfg inc).id = inc.id := by
  unfold rescoreSeverityOnly
  split <;> rfl

theorem rescoreSeverityOnly_members (cfg : Config) (inc : Incident) :
    (rescoreSeverityOnly cfg inc).members = inc.members := by
  unfold rescoreSeverityOnly
  split <;> rfl

theorem rescoreSeverityOnly_windowStart (cfg : Config) (inc : Incident) :
    (rescoreSeverityOnly cfg inc).windowStart = inc.windowStart := by
  unfold rescoreSeverityOnly
  split <;> rfl

theorem rescoreSeverityOnly_windowEnd (cfg : Config) (inc : Incident) :
    (rescoreSeverityOnly cfg inc).windowEnd = inc.windowEnd := by
  unfold rescoreSeverityOnly
  split <;> rfl

theorem rescoreSeverityOnly_status (cfg : Config) (inc : Incident) :
    (rescoreSeverityOnly cfg inc).status = inc.status := by
  unfold rescoreSeverityOnly
  split <;> rfl

theorem addPostTo_id (cfg : Config) (p : Post) (inc : Incident) :
    (addPostTo cfg p inc).id = inc.id := by
  unfold addPostTo
  rw [rescoreIncident_id]

theorem addPostTo_members (cfg : Config) (p : Post) (inc : Incident) :
    (addPostTo cfg p inc).members = p :: inc.members := by
  unfold addPostTo
  rw [rescoreIncident_members]

theorem addPostTo_windowStart (cfg : Config) (p : Post) (inc : Incident) :
    (addPostTo cfg p inc).windowStart = minTs (p :: inc.members) := by
  unfold addPostTo
  rw [rescoreIncident_windowStart]

theorem addPostTo_windowEnd (cfg : Config) (p : Post) (inc : Incident) :
    (addPostTo cfg p inc).windowEnd = maxTs (p :: inc.members) := by
  unfold addPostTo
  rw [rescoreIncident_windowEnd]

theorem addPostTo_status_verified (cfg : Config) (p : Post) (inc : Incident)
    (h : inc.status = Status.verified) :
    (addPostTo cfg p inc).status = Status.verified := by
  unfold addPostTo
  exact rescoreIncident_status_verified cfg _ h

theorem addPostTo_windowOk (cfg : Config) (p : Post) (inc : Incident) :
    incWindowOk (addPostTo cfg p inc) := by
  intro _
  rw [addPostTo_members, addPostTo_windowStart, addPostTo_windowEnd]
  exact ⟨rfl, rfl⟩

theorem find?_map_comm (l : List Incident) (g : Incident → Incident) (i : ℕ)
    (hg : ∀ x, (g x).id = x.id) :
    (l.map g).find? (fun x => x.id == i) = (l.find? (fun x => x.id == i)).map g := by
  induction l with
  | nil => rfl
  | cons x xs ih =>
    simp only [List.map_cons]
    by_cases h : (x.id == i) = true
    · rw [@List.find?_cons_of_pos Incident (fun y => y.id == i) (g x) (List.map g xs)
          (show ((g x).id == i) = true by rw [hg x]; exact h),
        @List.find?_cons_of_pos Incident (fun y => y.id == i) x xs h]
      rfl
    · rw [@List.find?_cons_of_neg Incident (fun y => y.id == i) (g x) (List.map g xs)
          (show ¬ ((g x).id == i) = true by rw [hg x]; exact h),
        @List.find?_cons_of_neg Incident (fun y => y.id == i) x xs h, ih]

theorem find?_verified_map (l : List Incident) (g : Incident → Incident) (i : ℕ)
    (hid : ∀ x, (g x).id = x.id)
    (hst : ∀ x, x.id = i → x.status = Status.verified →
      (g x).status = Status.verified)
    (h : ∃ inc, l.find? (fun x => x.id == i) = some inc ∧ inc.status = Status.verified) :
    ∃ inc, (l.map g).find? (fun x => x.id == i) = some inc
      ∧ inc.status = Status.verified := by
  obtain ⟨inc, hf, hv⟩ := h
  have hpred : (inc.id == i) = true := by
    have hps := List.find?_some hf
    simpa using hps
  refine ⟨g inc, ?_, hst inc (eq_of_beq hpred) hv⟩
  rw [find?_map_comm l g i hid, hf]
  rfl

theorem freshIds_map (st : Store) (g : Incident → Incident)
    (hid : ∀ x, (g x).id = x.id) (h : FreshIds st) :
    FreshIds { st with incidents := st.incidents.map g } := by
  intro inc hmem
  rw [List.mem_map] at hmem
  obtain ⟨x, hx, rfl⟩ := hmem
  show (g x).id < st.nextId
  rw [hid]
  exact h x hx

theorem updateIncident_id_preserving (j : ℕ) (f : Incident → Incident)
    (hf : ∀ x, (f x).id = x.id) (x : Incident) :
    ((fun x => if x.id = j then f x else x) x).id = x.id := by
  by_cases h : x.id = j <;> simp [h, hf]

theorem freshIds_applyAuto (cfg : Config) (a : AutoOp) (st : Store)
    (h : FreshIds st) : FreshIds (applyAuto cfg a st) := by
  cases a with
  | assignPost p =>
    show FreshIds (processPost cfg p st)
    unfold processPost
    split
    · exact h
    split
    · exact h
    split
    · exact h
    · unfold assign
      split
      · exact freshIds_map _ _
          (updateIncident_id_preserving _ _ (addPostTo_id cfg p)) h
      · intro inc hmem
        rcases List.mem_cons.mp hmem with hmem | hmem
        · subst hmem
          exact Nat.lt_succ_self _
        · exact Nat.lt_succ_of_lt (h inc hmem)
  | rescoreVerification j =>
    exact freshIds_map _ _
      (updateIncident_id_preserving _ _ (rescoreIncident_id cfg)) h
  | rescoreSeverity j =>
    exact freshIds_map _ _
      (updateIncident_id_preserving _ _ (rescoreSeverityOnly_id cfg)) h
  | periodicRescore =>
    exact freshIds_map _ _ (rescoreIncident_id cfg) h

theorem verifiedAt_applyAuto (cfg : Config) (a : AutoOp) (st : Store) (i : ℕ)
    (hfresh : FreshIds st) (h : VerifiedAt st i) :
    VerifiedAt (applyAuto cfg a st) i := by
  cases a with
  | assignPost p =>
    show VerifiedAt (processPost cfg p st) i
    unfold processPost
    split
    · exact h
    split
    · exact h
    split
    · exact h
    · unfold assign
      split
      · rename_i c hc
        exact find?_verified_map _ _ i
          (updateIncident_id_preserving _ _ (addPostTo_id cfg p))
          (fun x _ hx => by
            by_cases hxe : x.id = c.id <;>
              simp [hxe, addPostTo_status_verified cfg p x hx, hx]) h
      · obtain ⟨inc, hf, hv⟩ := h
        have hf' : List.find? (fun x => x.id == i) st.incidents = some inc := hf
        have hbeq : (inc.id == i) = true := by
          have hps := List.find?_some hf'
          simpa using hps
        have hid : inc.id = i := eq_of_beq hbeq
        have hlt : inc.id < st.nextId :=
          hfresh inc (List.mem_of_find?_eq_some hf')
        refine ⟨inc, ?_, hv⟩
        show List.find? (fun x => x.id == i)
          (newIncidentFor cfg p st.nextId :: st.incidents) = some inc
        rw [@List.find?_cons_of_neg Incident (fun y => y.id == i)
          (newIncidentFor cfg p st.nextId) st.incidents
          (show ¬ ((newIncidentFor cfg p st.nextId).id == i) = true by
            simp only [newIncidentFor, beq_iff_eq]
            omega)]
        exact hf'
  | rescoreVerification j =>
    exact find?_verified_map _ _ i
      (updateIncident_id_preserving _ _ (rescoreIncident_id cfg))
      (fun x _ hx => by
        by_cases hxe : x.id = j <;>
          simp [hxe, rescoreIncident_status_verified cfg x hx, hx]) h
  | rescoreSeverity j =>
    exact find?_verified_map _ _ i
      (updateIncident_id_preserving _ _ (rescoreSeverityOnly_id cfg))
      (fun x _ hx => by
        by_cases hxe : x.id = j <;>
          simp [hxe, rescoreSeverityOnly_status cfg x, hx]) h
  | periodicRescore =>
    exact find?_verified_map _ _ i (rescoreIncident_id cfg)
      (fun x _ hx => rescoreIncident_status_verified cfg x hx) h

theorem findIncident_id (st : Store) (i : ℕ) (inc : Incident)
    (h : findIncident st i = some inc) : inc.id = i := by
  have h' : List.find? (fun x => x.id == i) st.incidents = some inc := h
  have hbeq : (inc.id == i) = true := by
    have hps := List.find?_some h'
    simpa using hps
  exact eq_of_beq hbeq

theorem merge_target_verified (cfg : Config) (st st' : Store) (s t : ℕ)
    (tgt : Incident) (hm : mergeIncidents cfg st s t = (st', none))
    (hT : findIncident st t = some tgt) (hv : tgt.status = Status.verified) :
    VerifiedAt st' t := by
  unfold mergeIncidents at hm
  split at hm
  case _ src tgt0 hS hT0 =>
    have htgt0 : tgt0 = tgt := Option.some.inj (hT0.symm.trans hT)
    subst htgt0
    have hsid : src.id = s := findIncident_id st s src hS
    have htid : tgt0.id = t := findIncident_id st t tgt0 hT
    split at hm
    · simp at hm
    split at hm
    · simp at hm
    split at hm
    · simp at hm
    case _ hterm hne hflag =>
      rw [Prod.mk.injEq] at hm
      obtain ⟨hst, -⟩ := hm
      rw [← hst]
      have hts : ¬ t = s := fun hc => hne hc.symm
      exact find?_verified_map st.incidents _ t
        (fun x => by
          by_cases e1 : x.id = s
          · simp [e1, mergedSource, hsid]
          · by_cases e2 : x.id = t
            · simp [e1, e2, hts, mergedTarget, rescoreIncident_id, htid]
            · simp [e1, e2])
        (fun x hxi hxv => by
          have hxs : ¬ x.id = s := by rw [hxi]; exact hts
          simp only [hxs, hxi, hts, if_false, if_true, reduceIte]
          exact rescoreIncident_status_verified cfg _ hv)
        ⟨tgt0, hT, hv⟩
  case _ h1 =>
    simp at hm

theorem verifiedAt_runAuto (cfg : Config) (ops : List AutoOp) (st : Store) (i : ℕ)
    (hfresh : FreshIds st) (h : VerifiedAt st i) :
    VerifiedAt (runAuto cfg ops st) i := by
  induction ops generalizing st with
  | nil => exact h
  | cons o rest ih =>
    exact ih (applyAuto cfg o st) (freshIds_applyAuto cfg o st hfresh)
      (verifiedAt_applyAuto cfg o st i hfresh h)

theorem rescoreIncident_windowOk (cfg : Config) (inc : Incident)
    (h : incWindowOk inc) : incWindowOk (rescoreIncident cfg inc) := by
  unfold incWindowOk at h ⊢
  rw [rescoreIncident_members, rescoreIncident_windowStart,
    rescoreIncident_windowEnd]
  exact h

theorem rescoreSeverityOnly_windowOk (cfg : Config) (inc : Incident)
    (h : incWindowOk inc) : incWindowOk (rescoreSeverityOnly cfg inc) := by
  unfold incWindowOk at h ⊢
  rw [rescoreSeverityOnly_members, rescoreSeverityOnly_windowStart,
    rescoreSeverityOnly_windowEnd]
  exact h

theorem newIncidentFor_windowOk (cfg : Config) (p : Post) (i : ℕ) :
    incWindowOk (newIncidentFor cfg p i) := fun _ => ⟨rfl, rfl⟩

theorem mergedSource_windowOk (src : Incident) (t : ℕ) :
    incWindowOk (mergedSource src t) := fun hne => absurd rfl hne

theorem mergedTarget_windowOk (cfg : Config) (src tgt : Incident) :
    incWindowOk (mergedTarget cfg src tgt) :=
  rescoreIncident_windowOk cfg _ (fun _ => ⟨rfl, rfl⟩)

theorem windowInv_map (st : Store) (g : Incident → Incident)
    (posts' : List Post) (nid : ℕ)
    (hg : ∀ x ∈ st.incidents, incWindowOk x → incWindowOk (g x))
    (h : windowInv st) :
    windowInv { incidents := st.incidents.map g, posts := posts', nextId := nid } := by
  intro inc hmem
  have hmem' : inc ∈ st.incidents.map g := hmem
  rw [List.mem_map] at hmem'
  obtain ⟨x, hx, rfl⟩ := hmem'
  exact hg x hx (h x hx)

theorem windowInv_applyOp (cfg : Config) (o : Op) (st : Store)
    (h : windowInv st) : windowInv (applyOp cfg o st) := by
  cases o with
  | auto a =>
    cases a with
    | assignPost p =>
      show windowInv (processPost cfg p st)
      unfold processPost
      split
      · exact h
      split
      · exact h
      split
      · exact h
      · unfold assign
        split
        · rename_i c hc
          exact windowInv_map _ _ _ _
            (fun x _ hok => by
              by_cases e : x.id = c.id
              · simpa [e] using addPostTo_windowOk cfg p x
              · simpa [e] using hok) h
        · intro inc hmem
          rcases List.mem_cons.mp hmem with rfl | hmem
          · exact newIncidentFor_windowOk cfg p _
          · exact h inc hmem
    | rescoreVerification j =>
      exact windowInv_map _ _ _ _
        (fun x _ hok => by
          by_cases e : x.id = j
          · simpa [e] using rescoreIncident_windowOk cfg x hok
          · simpa [e] using hok) h
    | rescoreSeverity j =>
      exact windowInv_map _ _ _ _
        (fun x _ hok => by
          by_cases e : x.id = j
          · simpa [e] using rescoreSeverityOnly_windowOk cfg x hok
          · simpa [e] using hok) h
    | periodicRescore =>
      exact windowInv_map _ _ _ _
        (fun x _ hok => rescoreIncident_windowOk cfg x hok) h
  | flag i =>
    show windowInv (flagIncident st i).1
    unfold flagIncident
    split
    · exact h
    split
    · exact h
    · exact windowInv_map _ _ _ _
        (fun x _ hok => by
          by_cases e : x.id = i
          · simp only [e, if_true, reduceIte]
            exact hok
          · simpa [e] using hok) h
  | confirm i =>
    show windowInv (confirmIncident cfg st i).1
    unfold confirmIncident
    split
    · exact h
    split
    · exact h
    · exact windowInv_map _ _ _ _
        (fun x _ hok => by
          by_cases e : x.id = i
          · simp only [e, if_true, reduceIte]
            exact hok
          · simpa [e] using hok) h
  | merge s t =>
    show windowInv (mergeIncidents cfg st s t).1
    unfold mergeIncidents
    split
    · split
      · exact h
      split
      · exact h
      split
      · exact h
      · rename_i hterm hne hflag
        have hts : ¬ t = s := fun hc => hne hc.symm
        exact windowInv_map _ _ _ _
          (fun x _ hok => by
            by_cases e1 : x.id = s
            · simpa [e1] using mergedSource_windowOk _ t
            · by_cases e2 : x.id = t
              · simpa [e1, e2, hts] using mergedTarget_windowOk cfg _ _
              · simpa [e1, e2] using hok) h
    · exact h

/-- C2: For every Incident with at least one member Post, after every
mutation (post assignment through the pipeline, merge re-parenting,
moderation flag/confirm, verification or severity re-scoring) the
Incident's time window equals exactly the minimum and maximum of its
current member Posts' timestamps: the §3 invariant is preserved by every
sequence of operations on the store. -/
theorem time_window_invariant (cfg : Config) (ops : List Op) (st : Store)
    (h : windowInv st) : windowInv (runOps cfg ops st) := by
  induction ops generalizing st with
  | nil => exact h
  | cons o rest ih => exact ih (applyOp cfg o st) (windowInv_applyOp cfg o st h)

/-- Witness for C2: the invariant holds after assigning a concrete Post
and merging two concrete Incidents, starting from a concrete store that
satisfies it. -/
theorem time_window_invariant_witness :
    windowInv (runOps defaultConfig
      [Op.auto (AutoOp.assignPost samplePost2), Op.merge 1 0] mergeStore) :=
  time_window_invariant defaultConfig
    [Op.auto (AutoOp.assignPost samplePost2), Op.merge 1 0] mergeStore
    (by
      show ∀ inc ∈ mergeStore.incidents, inc.members ≠ [] →
        inc.windowStart = minTs inc.members ∧ inc.windowEnd = maxTs inc.members
      decide)

/-- C1: For every Incident and every sequence of automatic
(non-moderation) operations — post assignment, verification re-scoring,
severity re-evaluation, periodic re-scoring — an Incident whose status is
`verified` never transitions back to `unverified` (it remains `verified`);
and a successful moderation merge, which removes the source's
re-parented members, may lower the target's confidence but never erases
its verified status. -/
theorem verified_status_monotonic (cfg : Config) :
    (∀ (ops : List AutoOp) (st : Store) (i : ℕ),
        FreshIds st → VerifiedAt st i → VerifiedAt (runAuto cfg ops st) i)
    ∧ (∀ (st st' : Store) (s t : ℕ) (tgt : Incident),
        mergeIncidents cfg st s t = (st', none) →
        findIncident st t = some tgt → tgt.status = Status.verified →
        VerifiedAt st' t) :=
  ⟨fun ops st i hfresh hv => verifiedAt_runAuto cfg ops st i hfresh hv,
   fun st st' s t tgt hm hT hv => merge_target_verified cfg st st' s t tgt hm hT hv⟩

/-- Witness for C1: a concrete verified Incident survives a periodic
re-scoring pass with its verified status intact. -/
theorem verified_status_monotonic_witness :
    VerifiedAt (runAuto defaultConfig [AutoOp.periodicRescore] sampleStore) 0 :=
  (verified_status_monotonic defaultConfig).1 [AutoOp.periodicRescore] sampleStore 0
    (by
      show ∀ inc ∈ sampleStore.incidents, inc.id < sampleStore.nextId
      decide)
    ⟨sampleIncident, rfl, rfl⟩

/-- C3: For every pair of Incidents, merge fails with
`ErrorKind.AlreadyTerminal` when either Incident already has status
`merged`, and fails with `ErrorKind.InvalidTargetState` when the (distinct)
target has status `flagged_false_positive`; in the `InvalidTargetState`
case the whole store — in particular the source Incident — is left
entirely unchanged (atomicity on error). -/
theorem merge_error_handling (cfg : Config) (st : Store) (s t : ℕ)
    (src tgt : Incident) (hS : findIncident st s = some src)
    (hT : findIncident st t = some tgt) :
    ((src.status = Status.merged ∨ tgt.status = Status.merged) →
      mergeIncidents cfg st s t = (st, some ErrorKind.AlreadyTerminal))
    ∧ (src.status ≠ Status.merged → tgt.status ≠ Status.merged →
      tgt.status = Status.flaggedFalsePositive →
      mergeIncidents cfg st s t = (st, some ErrorKind.InvalidTargetState)
        ∧ findIncident (mergeIncidents cfg st s t).1 s = some src) := by
  constructor
  · intro hterm
    unfold mergeIncidents
    rw [hS, hT]
    simp [hterm]
  · intro h1 h2 h3
    have hterm : ¬ (src.status = Status.merged ∨ tgt.status = Status.merged) := by
      rintro (hc | hc)
      · exact h1 hc
      · exact h2 hc
    have heq : mergeIncidents cfg st s t = (st, some ErrorKind.InvalidTargetState) := by
      unfold mergeIncidents
      rw [hS, hT]
      by_cases he : s = t
      · simp [hterm, he]
      · simp [hterm, he, h1, h2, h3]
    exact ⟨heq, by rw [heq]; exact hS⟩

/-- Witness for C3: merging a concrete unverified Incident into a concrete
flagged one is rejected with `InvalidTargetState` and leaves the source
untouched. -/
theorem merge_error_handling_witness :
    mergeIncidents defaultConfig mergeStore 0 1
        = (mergeStore, some ErrorKind.InvalidTargetState)
    ∧ findIncident (mergeIncidents defaultConfig mergeStore 0 1).1 0
        = some unverifiedIncident :=
  (merge_error_handling defaultConfig mergeStore 0 1 unverifiedIncident
      flaggedIncident rfl rfl).2 (by decide) (by decide) (by decide)

theorem candidateLe_refl (cfg : Config) (p : Post) (a : Incident) :
    candidateLe cfg p a a := Or.inr ⟨rfl, le_refl _⟩

theorem candidateLe_trans (cfg : Config) (p : Post) {a b c : Incident}
    (h1 : candidateLe cfg p a b) (h2 : candidateLe cfg p b c) :
    candidateLe cfg p a c := by
  rcases h1 with h1 | ⟨e1, l1⟩ <;> rcases h2 with h2 | ⟨e2, l2⟩
  · exact Or.inl (h1.trans h2)
  · exact Or.inl (by rw [← e2]; exact h1)
  · exact Or.inl (by rw [e1]; exact h2)
  · exact Or.inr ⟨e1.trans e2, l1.trans l2⟩

theorem beatsB_true_le (cfg : Config) (p : Post) {c a : Incident}
    (h : beatsB cfg p c a = true) : candidateLe cfg p a c := by
  unfold beatsB at h
  simp only [Bool.or_eq_true, Bool.and_eq_true, decide_eq_true_eq] at h
  rcases h with h | ⟨he, hl⟩
  · exact Or.inl h
  · exact Or.inr ⟨he.symm, le_of_lt hl⟩

theorem beatsB_false_le (cfg : Config) (p : Post) {c a : Incident}
    (h : beatsB cfg p c a = false) : candidateLe cfg p c a := by
  unfold beatsB at h
  simp only [Bool.or_eq_false_iff, Bool.and_eq_false_iff,
    decide_eq_false_iff_not] at h
  obtain ⟨hlt, hca⟩ := h
  rcases lt_or_eq_of_le (le_of_not_lt hlt) with hlt' | heq
  · exact Or.inl hlt'
  · refine Or.inr ⟨heq, ?_⟩
    rcases hca with hne | hle
    · exact absurd heq hne
    · exact le_of_not_lt hle

theorem pick1_spec (cfg : Config) (p : Post) :
    ∀ (l : List Incident) (a : Incident),
      candidateLe cfg p a (pick1 cfg p a l)
      ∧ (pick1 cfg p a l = a ∨ pick1 cfg p a l ∈ l)
      ∧ (∀ o ∈ l, candidateLe cfg p o (pick1 cfg p a l)) := by
  intro l
  induction l with
  | nil =>
    intro a
    exact ⟨candidateLe_refl cfg p a, Or.inl rfl, by simp⟩
  | cons c rest ih =>
    intro a
    have hunfold : pick1 cfg p a (c :: rest)
        = pick1 cfg p (if beatsB cfg p c a then c else a) rest := rfl
    by_cases hb : beatsB cfg p c a = true
    · rw [hunfold, if_pos hb]
      obtain ⟨h1, h2, h3⟩ := ih c
      refine ⟨candidateLe_trans cfg p (beatsB_true_le cfg p hb) h1, ?_, ?_⟩
      · rcases h2 with he | hm
        · exact Or.inr (by rw [he]; exact List.mem_cons_self c rest)
        · exact Or.inr (List.mem_cons_of_mem c hm)
      · intro o ho
        rcases List.mem_cons.mp ho with rfl | hm
        · exact h1
        · exact h3 o hm
    · rw [hunfold, if_neg hb]
      obtain ⟨h1, h2, h3⟩ := ih a
      refine ⟨h1, ?_, ?_⟩
      · rcases h2 with he | hm
        · exact Or.inl he
        · exact Or.inr (List.mem_cons_of_mem c hm)
      · intro o ho
        rcases List.mem_cons.mp ho with rfl | hm
        · exact candidateLe_trans cfg p
            (beatsB_false_le cfg p (Bool.eq_false_iff.mpr hb)) h1
        · exact h3 o hm

theorem pickBest_spec (cfg : Config) (p : Post) (l : List Incident)
    (h : l ≠ []) :
    ∃ c, pickBest cfg p l = some c ∧ c ∈ l
      ∧ ∀ o ∈ l, candidateLe cfg p o c := by
  cases l with
  | nil => exact absurd rfl h
  | cons x xs =>
    obtain ⟨h1, h2, h3⟩ := pick1_spec cfg p xs x
    refine ⟨pick1 cfg p x xs, rfl, ?_, ?_⟩
    · rcases h2 with he | hm
      · rw [he]
        exact List.mem_cons_self x xs
      · exact List.mem_cons_of_mem x hm
    · intro o ho
      rcases List.mem_cons.mp ho with rfl | hm
      · exact h1
      · exact h3 o hm

theorem assign_eq_found (cfg : Config) (p : Post) (st : Store) (c : Incident)
    (hc : pickBest cfg p (aboveThreshold cfg p st) = some c) :
    assign cfg p st = ({ incidentId := c.id, created := false },
      { st with incidents :=
          st.incidents.map fun x => if x.id = c.id then addPostTo cfg p x else x }) := by
  unfold assign
  rw [hc]

theorem assign_eq_created (cfg : Config) (p : Post) (st : Store)
    (hc : pickBest cfg p (aboveThreshold cfg p st) = none) :
    assign cfg p st = ({ incidentId := st.nextId, created := true },
      { st with
          incidents := newIncidentFor cfg p st.nextId :: st.incidents,
          nextId := st.nextId + 1 }) := by
  unfold assign
  rw [hc]

/-- C4: For every Post offered to the Clustering Engine with at least one
candidate Incident whose composite similarity strictly exceeds the
threshold S, assign delivers the Post to the highest-scoring such
candidate (ties broken by most-recent Incident update time, the
`candidateLe` order) and reports `created = false`; when no candidate
exceeds S, assign creates a new Incident carrying that Post as sole
member with status `unverified` and confidence and severity computed from
that one Post, and reports `created = true`. -/
theorem clustering_assign (cfg : Config) (p : Post) (st : Store) :
    (aboveThreshold cfg p st ≠ [] →
      ∃ c, pickBest cfg p (aboveThreshold cfg p st) = some c
        ∧ c ∈ aboveThreshold cfg p st
        ∧ cfg.simThreshold < similarity cfg p c
        ∧ (∀ o ∈ aboveThreshold cfg p st, candidateLe cfg p o c)
        ∧ (assign cfg p st).1 = { incidentId := c.id, created := false }
        ∧ ∃ inc', findIncident (assign cfg p st).2 c.id = some inc'
            ∧ p ∈ inc'.members)
    ∧ (aboveThreshold cfg p st = [] →
      (assign cfg p st).1 = { incidentId := st.nextId, created := true }
      ∧ ∃ inc', findIncident (assign cfg p st).2 st.nextId = some inc'
          ∧ inc'.members = [p]
          ∧ inc'.status = Status.unverified
          ∧ inc'.confidence = confidenceOf cfg (newIncidentFor cfg p st.nextId)
          ∧ inc'.severity = classifySeverity cfg [p]) := by
  constructor
  · intro hne
    obtain ⟨c, hpick, hmem, hall⟩ := pickBest_spec cfg p _ hne
    have hS : cfg.simThreshold < similarity cfg p c := by
      have hd := (List.mem_filter.mp hmem).2
      exact of_decide_eq_true hd
    have hid : ∀ x,
        ((fun x => if x.id = c.id then addPostTo cfg p x else x) x).id = x.id :=
      updateIncident_id_preserving c.id _ (addPostTo_id cfg p)
    have hcin : c ∈ st.incidents :=
      List.mem_of_mem_filter (List.mem_of_mem_filter hmem)
    have hiss : (st.incidents.find? (fun x => x.id == c.id)).isSome := by
      rw [List.find?_isSome]
      exact ⟨c, hcin, by simp⟩
    obtain ⟨x0, hx0⟩ := Option.isSome_iff_exists.mp hiss
    have hx0id : x0.id = c.id := by
      have hps := List.find?_some hx0
      have hbeq : (x0.id == c.id) = true := by simpa using hps
      exact eq_of_beq hbeq
    refine ⟨c, hpick, hmem, hS, hall, ?_, ?_⟩
    · rw [assign_eq_found cfg p st c hpick]
    · rw [assign_eq_found cfg p st c hpick]
      refine ⟨addPostTo cfg p x0, ?_, ?_⟩
      · show List.find? (fun x => x.id == c.id)
            (st.incidents.map (fun x => if x.id = c.id then addPostTo cfg p x else x))
          = some (addPostTo cfg p x0)
        rw [find?_map_comm st.incidents _ c.id hid, hx0]
        simp [hx0id]
      · rw [addPostTo_members]
        exact List.mem_cons_self p x0.members
  · intro hempty
    have hpick : pickBest cfg p (aboveThreshold cfg p st) = none := by
      rw [hempty]
      rfl
    rw [assign_eq_created cfg p st hpick]
    refine ⟨rfl, newIncidentFor cfg p st.nextId, ?_, rfl, rfl, rfl, rfl⟩
    show List.find? (fun x => x.id == st.nextId)
      (newIncidentFor cfg p st.nextId :: st.incidents) = _
    rw [@List.find?_cons_of_pos Incident (fun y => y.id == st.nextId)
      (newIncidentFor cfg p st.nextId) st.incidents (by simp [newIncidentFor])]

/-- Witness for C4: the concrete hostile Post is delivered to the one
concrete candidate above threshold, with `created = false`. -/
theorem clustering_assign_witness :
    ∃ c, pickBest defaultConfig samplePost
        (aboveThreshold defaultConfig samplePost sampleStore) = some c
      ∧ c ∈ aboveThreshold defaultConfig samplePost sampleStore
      ∧ defaultConfig.simThreshold < similarity defaultConfig samplePost c
      ∧ (∀ o ∈ aboveThreshold defaultConfig samplePost sampleStore,
          candidateLe defaultConfig samplePost o c)
      ∧ (assign defaultConfig samplePost sampleStore).1
          = { incidentId := c.id, created := false }
      ∧ ∃ inc', findIncident (assign defaultConfig samplePost sampleStore).2 c.id
            = some inc'
          ∧ samplePost ∈ inc'.members :=
  (clustering_assign defaultConfig samplePost sampleStore).1 (by
    have habove : aboveThreshold defaultConfig samplePost sampleStore
        = [sampleIncident] := by
      simp only [aboveThreshold, sampleStore, sampleIncident, samplePost,
        sampleLocation, defaultConfig, isCandidate, similarity, spatialSim,
        temporalSim, textualSim, dist2, clip01, windowDist, keywordSet,
        List.filter]
      norm_num
    rw [habove]
    simp)

/-- C5: For every non-moderation-locked unverified Incident, verification
scoring promotes it to `verified` exactly when at least N distinct source
kinds (excluding weather) or at least K distinct sources of any kind
contribute corroborating member Posts AND the mean relevance of members
reaches the verification floor; the recomputed confidence is
`confidenceOf` and always lies in [0,1]. -/
theorem verification_score (cfg : Config) (inc : Incident)
    (hU : inc.status = Status.unverified) (hL : inc.statusLocked = false) :
    ((rescoreIncident cfg inc).status = Status.verified ↔
      ((cfg.minSourceKinds ≤ distinctKinds inc.members
          ∨ cfg.minDistinctSources ≤ distinctSources inc.members)
        ∧ cfg.verificationFloor ≤ meanRelevance inc.members))
    ∧ (rescoreIncident cfg inc).confidence = confidenceOf cfg inc
    ∧ 0 ≤ confidenceOf cfg inc ∧ confidenceOf cfg inc ≤ 1 := by
  have hsc : scoreStatus cfg inc
      = if corroborated cfg inc.members then Status.verified
        else Status.unverified := by
    unfold scoreStatus
    rw [hU]
    simp
  have hres : (rescoreIncident cfg inc).status = scoreStatus cfg inc
      ∧ (rescoreIncident cfg inc).confidence = confidenceOf cfg inc := by
    unfold rescoreIncident
    rw [hU, hL]
    simp only [reduceCtorEq, or_self, if_false, Bool.false_eq_true, reduceIte]
    split <;> exact ⟨rfl, rfl⟩
  have h1 : (rescoreIncident cfg inc).status = Status.verified
      ↔ corroborated cfg inc.members = true := by
    rw [hres.1, hsc]
    by_cases hcor : corroborated cfg inc.members = true
    · simp [hcor]
    · simp [hcor]
  have h2 : corroborated cfg inc.members = true ↔
      ((cfg.minSourceKinds ≤ distinctKinds inc.members
          ∨ cfg.minDistinctSources ≤ distinctSources inc.members)
        ∧ cfg.verificationFloor ≤ meanRelevance inc.members) := by
    unfold corroborated
    simp [Bool.and_eq_true, Bool.or_eq_true, decide_eq_true_eq]
  exact ⟨h1.trans h2, hres.2, clip01_nonneg _, clip01_le_one _⟩

/-- Witness for C5: the concrete single-source unverified Incident is not
promoted (one source kind, one source, below both corroboration bars), and
its recomputed confidence is the clipped combination. -/
theorem verification_score_witness :
    ((rescoreIncident defaultConfig unverifiedIncident).status = Status.verified ↔
      ((defaultConfig.minSourceKinds ≤ distinctKinds unverifiedIncident.members
          ∨ defaultConfig.minDistinctSources
              ≤ distinctSources unverifiedIncident.members)
        ∧ defaultConfig.verificationFloor
            ≤ meanRelevance unverifiedIncident.members))
    ∧ (rescoreIncident defaultConfig unverifiedIncident).confidence
        = confidenceOf defaultConfig unverifiedIncident
    ∧ 0 ≤ confidenceOf defaultConfig unverifiedIncident
    ∧ confidenceOf defaultConfig unverifiedIncident ≤ 1 :=
  verification_score defaultConfig unverifiedIncident rfl rfl

/-- C6: For every Post whose relevance score is below the minimum
relevance threshold, processing that Post creates no Incident and mutates
no existing Incident — the store's incident list is unchanged, so every
member set, time window, score and status is unchanged — while the Post
itself is added to storage. -/
theorem below_threshold_no_mutation (cfg : Config) (p : Post) (st : Store)
    (r : ℚ) (hr : p.relevance = some r) (hlow : r < cfg.minRelevance) :
    (processPost cfg p st).incidents = st.incidents
    ∧ p ∈ (processPost cfg p st).posts := by
  unfold processPost
  split
  · exact ⟨rfl, List.mem_cons_self p st.posts⟩
  · rw [hr]
    show ((if r < cfg.minRelevance then ({ st with posts := p :: st.posts } : Store)
          else (assign cfg p { st with posts := p :: st.posts }).2).incidents
        = st.incidents)
      ∧ p ∈ (if r < cfg.minRelevance
          then ({ st with posts := p :: st.posts } : Store)
          else (assign cfg p { st with posts := p :: st.posts }).2).posts
    rw [if_pos hlow]
    exact ⟨rfl, List.mem_cons_self p st.posts⟩

/-- Witness for C6: processing the concrete below-threshold Post leaves
the concrete store's incidents untouched and stores the Post. -/
theorem below_threshold_no_mutation_witness :
    (processPost defaultConfig samplePost2 sampleStore).incidents
        = sampleStore.incidents
    ∧ samplePost2 ∈ (processPost defaultConfig samplePost2 sampleStore).posts :=
  below_threshold_no_mutation defaultConfig samplePost2 sampleStore (1/10) rfl
    (by norm_num [defaultConfig])

/-- C7: For every Post already linked as a member of some Incident,
re-submitting that Post through the pipeline is a no-op on the incident
store: every Incident's member set, confidence and severity scores, and
time window are unchanged. -/
theorem reprocess_linked_noop (cfg : Config) (p : Post) (st : Store)
    (h : alreadyLinked p st = true) :
    (processPost cfg p st).incidents = st.incidents := by
  unfold processPost
  rw [if_pos h]

/-- Witness for C7: re-submitting the concrete already-linked Post leaves
the concrete store's incidents unchanged. -/
theorem reprocess_linked_noop_witness :
    (processPost defaultConfig samplePost sampleStore).incidents
      = sampleStore.incidents :=
  reprocess_linked_noop defaultConfig samplePost sampleStore (by decide)

/-- C8: For every region whose incident history in the trailing window is
below the minimum sample size, `predict` returns an
`InsufficientHistory`-flagged, low-confidence (1/5) RiskAssessment as a
successful `Except.ok` value rather than failing with an `Except.error`. -/
theorem risk_sparse_history (cfg : Config) (region wStart wEnd : ℕ)
    (incs : List Incident)
    (h : (regionHistory region wStart wEnd incs).length < cfg.minSampleSize) :
    ∃ ra, predict cfg region wStart wEnd incs = Except.ok ra
      ∧ ra.insufficientHistory = true
      ∧ ra.confidence = 1/5 := by
  unfold predict
  rw [if_pos h]
  exact ⟨_, rfl, rfl, rfl⟩

/-- Witness for C8: a concrete region with only 2 incidents in the
trailing window (minimum sample size 3) yields a flagged low-confidence
assessment, not an error. -/
theorem risk_sparse_history_witness :
    ∃ ra, predict defaultConfig 7 0 200 [sampleIncident, sampleIncident2]
        = Except.ok ra
      ∧ ra.insufficientHistory = true
      ∧ ra.confidence = 1/5 :=
  risk_sparse_history defaultConfig 7 0 200 [sampleIncident, sampleIncident2]
    (by decide)

/-- C9: For every incident list given to `IncidentMap` and every selected
filter, a map marker is rendered only for incidents whose `location_lat`
and `location_lng` are both truthy JavaScript values; any incident whose
latitude or longitude is `null`/`undefined` (`none`) or exactly `0` is
silently excluded from `incidentsWithCoords`, regardless of the filter. -/
theorem incident_map_marker_filter (f : Frontend.MapFilter)
    (incidents : List Frontend.FrontIncident) :
    (∀ i ∈ Frontend.incidentsWithCoords f incidents,
      Frontend.truthyNum i.location_lat = true
        ∧ Frontend.truthyNum i.location_lng = true)
    ∧ (∀ i : Frontend.FrontIncident,
      (i.location_lat = none ∨ i.location_lat = some 0
        ∨ i.location_lng = none ∨ i.location_lng = some 0) →
      i ∉ Frontend.incidentsWithCoords f incidents) := by
  constructor
  · intro i hi
    obtain ⟨-, hcond⟩ := List.mem_filter.mp hi
    simpa [Bool.and_eq_true] using hcond
  · intro i hbad hi
    obtain ⟨-, hcond⟩ := List.mem_filter.mp hi
    rw [Bool.and_eq_true] at hcond
    obtain ⟨h1, h2⟩ := hcond
    rcases hbad with hb | hb | hb | hb
    · simp [Frontend.truthyNum, hb] at h1
    · simp [Frontend.truthyNum, hb] at h1
    · simp [Frontend.truthyNum, hb] at h2
    · simp [Frontend.truthyNum, hb] at h2

/-- Witness for C9: the concrete incident lying exactly on the prime
meridian (longitude 0) is excluded from the map even though it matches
the filter and is present in the input list. -/
theorem incident_map_marker_filter_witness :
    Frontend.frontSample ∉
      Frontend.incidentsWithCoords Frontend.MapFilter.all [Frontend.frontSample] :=
  (incident_map_marker_filter Frontend.MapFilter.all [Frontend.frontSample]).2
    Frontend.frontSample (Or.inr (Or.inr (Or.inr rfl)))

/-- C10: For every `ApiService` method and every failure of the underlying
HTTP request — a network error or a non-ok response status — the method
never throws (it is total): the list-returning methods `fetchIncidents`,
`fetchLatestIncidents` and `fetchPredictions` return the empty array, and
the object-returning methods `fetchDashboard`, `triggerCollection`,
`subscribeToAlerts`, `getCollectionStatus`, `fetchRiskAssessment` and
`fetchPredictiveDashboard` return `null` (`none`). -/
theorem api_service_failure_fallback {α : Type}
    (ol : Frontend.FetchOutcome (List α)) (o : Frontend.FetchOutcome α)
    (hol : ol.failed) (ho : o.failed) :
    Frontend.ApiService.fetchIncidents ol = []
    ∧ Frontend.ApiService.fetchLatestIncidents ol = []
    ∧ Frontend.ApiService.fetchPredictions ol = []
    ∧ Frontend.ApiService.fetchDashboard o = none
    ∧ Frontend.ApiService.triggerCollection o = none
    ∧ Frontend.ApiService.subscribeToAlerts o = none
    ∧ Frontend.ApiService.getCollectionStatus o = none
    ∧ Frontend.ApiService.fetchRiskAssessment o = none
    ∧ Frontend.ApiService.fetchPredictiveDashboard o = none := by
  refine ⟨?_, ?_, ?_, ?_, ?_, ?_, ?_, ?_, ?_⟩ <;>
    first
    | (cases ol with
       | networkError => rfl
       | response ok body =>
         rw [show ok = false from hol]
         rfl)
    | (cases o with
       | networkError => rfl
       | response ok body =>
         rw [show ok = false from ho]
         rfl)

/-- Witness for C10: on a concrete non-ok response every method falls
back to its neutral value. -/
theorem api_service_failure_fallback_witness :
    Frontend.ApiService.fetchIncidents (Frontend.FetchOutcome.response false [(0 : ℕ)])
        = []
    ∧ Frontend.ApiService.fetchLatestIncidents
        (Frontend.FetchOutcome.response false [(0 : ℕ)]) = []
    ∧ Frontend.ApiService.fetchPredictions
        (Frontend.FetchOutcome.response false [(0 : ℕ)]) = []
    ∧ Frontend.ApiService.fetchDashboard
        (Frontend.FetchOutcome.response false (0 : ℕ)) = none
    ∧ Frontend.ApiService.triggerCollection
        (Frontend.FetchOutcome.response false (0 : ℕ)) = none
    ∧ Frontend.ApiService.subscribeToAlerts
        (Frontend.FetchOutcome.response false (0 : ℕ)) = none
    ∧ Frontend.ApiService.getCollectionStatus
        (Frontend.FetchOutcome.response false (0 : ℕ)) = none
    ∧ Frontend.ApiService.fetchRiskAssessment
        (Frontend.FetchOutcome.response false (0 : ℕ)) = none
    ∧ Frontend.ApiService.fetchPredictiveDashboard
        (Frontend.FetchOutcome.response false (0 : ℕ)) = none :=
  api_service_failure_fallback (Frontend.FetchOutcome.response false [(0 : ℕ)])
    (Frontend.FetchOutcome.response false (0 : ℕ)) rfl rfl

end Noesis
